import Mathlib

/-!
Shallow embedding of the hormone–mood simulation engine of the BOT
repository (`persona/hormone_adjuster.py` and `persona/mood_tracker.py`).

Python dictionaries over string keys are modelled as association lists in
insertion order (`dictSet` overwrites an existing key in place and appends a
new key at the end, exactly like CPython dict assignment); Python floats are
modelled as rationals; fallible operations (unguarded `dict[key]` indexing,
file writes) return `Option` or take an explicit success flag.
-/

namespace BOT

/-- Association-list model of a Python `dict` with values of type `α`:
`d[k]` as an `Option`, `none` when the key is absent (a `KeyError`). -/
def dictGet {α : Type} : List (String × α) → String → Option α
  | [], _ => none
  | kv :: tl, k => if kv.1 = k then some kv.2 else dictGet tl k

/-- Python `d.get(k, v0)`. -/
def dictGetD {α : Type} (d : List (String × α)) (k : String) (v0 : α) : α :=
  (dictGet d k).getD v0

/-- Python `d[k] = v`: overwrite in place when the key is present, append at
the end when absent — exactly CPython dict assignment in insertion order
(the lists a dict can denote never repeat a key, so replacing the first
occurrence is replacing the only one). -/
def dictSet {α : Type} : List (String × α) → String → α → List (String × α)
  | [], k, v => [(k, v)]
  | kv :: tl, k, v => if kv.1 = k then (k, v) :: tl else kv :: dictSet tl k v

/-- The keys of a dict, in insertion order. -/
def dictKeys {α : Type} (d : List (String × α)) : List String := d.map (·.1)

/-- A per-hormone map: hormone name → rational level or delta. -/
abbrev HDict := List (String × ℚ)

/-! ### `persona/hormone_adjuster.py`: weight tables and parameters -/

/-- The table `_EMOTION_HORMONE_MAP` of `hormone_adjuster.py`, verbatim. -/
def _EMOTION_HORMONE_MAP : List (String × HDict) :=
  [ ("joy", [("dopamine", 12/100), ("serotonin", 8/100)]),
    ("love", [("oxytocin", 15/100), ("dopamine", 8/100), ("serotonin", 5/100)]),
    ("admiration", [("dopamine", 6/100), ("oxytocin", 4/100)]),
    ("excitement", [("dopamine", 10/100), ("cortisol", 2/100)]),
    ("gratitude", [("serotonin", 8/100), ("oxytocin", 6/100)]),
    ("relief", [("cortisol", -8/100), ("serotonin", 5/100)]),
    ("pride", [("dopamine", 8/100), ("serotonin", 4/100)]),
    ("optimism", [("dopamine", 6/100), ("serotonin", 6/100)]),
    ("caring", [("oxytocin", 10/100), ("serotonin", 4/100)]),
    ("approval", [("dopamine", 5/100), ("oxytocin", 3/100)]),
    ("anger", [("cortisol", 12/100), ("dopamine", -5/100), ("serotonin", -4/100)]),
    ("sadness", [("serotonin", -10/100), ("cortisol", 6/100), ("dopamine", -4/100)]),
    ("fear", [("cortisol", 15/100), ("serotonin", -6/100)]),
    ("disgust", [("cortisol", 8/100), ("serotonin", -5/100)]),
    ("annoyance", [("cortisol", 6/100), ("serotonin", -3/100)]),
    ("disappointment", [("dopamine", -8/100), ("serotonin", -5/100)]),
    ("embarrassment", [("cortisol", 8/100), ("oxytocin", -4/100)]),
    ("grief", [("serotonin", -12/100), ("cortisol", 10/100)]),
    ("nervousness", [("cortisol", 10/100), ("dopamine", -3/100)]),
    ("remorse", [("serotonin", -6/100), ("cortisol", 5/100)]),
    ("surprise", [("dopamine", 4/100), ("cortisol", 2/100)]),
    ("curiosity", [("dopamine", 5/100)]),
    ("confusion", [("cortisol", 3/100)]),
    ("neutral", []) ]

/-- The table `_TOXICITY_HORMONE_MAP` of `hormone_adjuster.py`, verbatim. -/
def _TOXICITY_HORMONE_MAP : List (String × HDict) :=
  [ ("TOXIC", [("cortisol", 15/100), ("serotonin", -8/100)]),
    ("toxic", [("cortisol", 15/100), ("serotonin", -8/100)]),
    ("severe_toxic", [("cortisol", 20/100), ("serotonin", -12/100), ("dopamine", -6/100)]),
    ("obscene", [("cortisol", 10/100), ("serotonin", -6/100)]),
    ("threat", [("cortisol", 18/100), ("dopamine", -8/100)]),
    ("insult", [("cortisol", 12/100), ("serotonin", -8/100)]),
    ("identity_hate", [("cortisol", 15/100), ("serotonin", -10/100)]) ]

def _RATE_LIMIT : ℚ := 8/100

def _DECAY_STEP : ℚ := 1/100

def _CONFIDENCE_THRESHOLD : ℚ := 3/10

def _TOXICITY_THRESHOLD : ℚ := 1/2

/-- Model of `_apply_resistance(current, delta)`: smaller effective change near the
extremes 0 and 1. -/
def _apply_resistance (current delta : ℚ) : ℚ :=
  delta * (4/10 + 6/10 * (1 - |current - 1/2| * 2))

/-- Python `max(0.0, min(1.0, x))`, as used on line 175 of `hormone_adjuster.py`. -/
def clamp01 (x : ℚ) : ℚ := max 0 (min 1 x)

/-- Python `max(-_RATE_LIMIT, min(_RATE_LIMIT, base_delta))`, line 171. -/
def rateLimit (baseDelta : ℚ) : ℚ :=
  max (-_RATE_LIMIT) (min _RATE_LIMIT baseDelta)

/-- The per-hormone update of lines 171–175: rate limit, resistance curve,
then clamp the new level into `[0, 1]`. -/
def updateLevel (current baseDelta : ℚ) : ℚ :=
  clamp01 (current + _apply_resistance current (rateLimit baseDelta))

/-- The per-hormone baseline decay of lines 181–186: snap to `0.5` when
strictly within `_DECAY_STEP` of it, otherwise move `_DECAY_STEP` toward it. -/
def decayStep (v : ℚ) : ℚ :=
  if |v - 1/2| < _DECAY_STEP then 1/2
  else if v > 1/2 then v - _DECAY_STEP
  else v + _DECAY_STEP

/-! ### `analyze_contextual_sentiment`: signal-to-delta mapping -/

/-- One entry of the emotion classifier output: `{label, score}`. -/
structure EmotionSignal where
  label : String
  score : ℚ
deriving DecidableEq

/-- The toxicity classifier output: `{is_toxic, score, label}`. -/
structure ToxicityResult where
  is_toxic : Bool
  score : ℚ
  label : String
deriving DecidableEq

/-- Python `str.lower()` on the ASCII classifier labels, as applied on lines
97 and 110 of `hormone_adjuster.py`. -/
def strLower (s : String) : String := ⟨s.data.map Char.toLower⟩

/-- The accumulation loop
`hormone_deltas[hormone] = hormone_deltas.get(hormone, 0) + base_delta * scale`
run over a weight-table entry `ws` (lines 124–127 and 135–139 of
`hormone_adjuster.py`, with `scale` the respective scaling factor). -/
def accumWeights (d : HDict) (ws : HDict) (scale : ℚ) : HDict :=
  ws.foldl (fun acc hw => dictSet acc hw.1 (dictGetD acc hw.1 0 + hw.2 * scale)) d

/-- The emotion-driven part of the `hormone_deltas` map (lines 93–128 of
`hormone_adjuster.py`): the primary emotion is the lower-cased top label when
the overall confidence is strictly above `_CONFIDENCE_THRESHOLD` and
`"neutral"` otherwise; its table weights are scaled by
`emotion_intensity * overall_confidence`; labels absent from the table (and
`"neutral"`, whose entry is empty) contribute nothing. -/
def emotionDeltas (emotions : List EmotionSignal) (overallConfidence : ℚ) : HDict :=
  let pe : String × ℚ :=
    match emotions with
    | e :: _ =>
        if overallConfidence > _CONFIDENCE_THRESHOLD then ((strLower e.label), e.score)
        else ("neutral", 0)
    | [] => ("neutral", 0)
  match dictGet _EMOTION_HORMONE_MAP pe.1 with
  | some ws => accumWeights [] ws (pe.2 * overallConfidence)
  | none => []

/-- The full `hormone_deltas` map computed by `analyze_contextual_sentiment`
(lines 93–141): the emotion-driven deltas, plus — when the toxicity result is
flagged toxic with score strictly above `_TOXICITY_THRESHOLD` — the weights
of the lower-cased toxicity label scaled by that raw score and accumulated
additively onto the same map; labels absent from the toxicity table are
skipped. -/
def analyzeHormoneDeltas (emotions : List EmotionSignal)
    (toxicity : Option ToxicityResult) (overallConfidence : ℚ) : HDict :=
  let toxicityDetected : List (String × ℚ) :=
    match toxicity with
    | some t =>
        if t.is_toxic ∧ t.score > _TOXICITY_THRESHOLD then [((strLower t.label), t.score)]
        else []
    | none => []
  toxicityDetected.foldl
    (fun acc ls =>
      match dictGet _TOXICITY_HORMONE_MAP ls.1 with
      | some ws => accumWeights acc ws ls.2
      | none => acc)
    (emotionDeltas emotions overallConfidence)

/-! ### `apply_contextual_hormone_adjustments`: the store update -/

/-- One iteration of the delta loop (lines 169–176): read the original level
`hormones[hormone]` (a `KeyError`, i.e. `none`, when absent), rate-limit the
delta, apply the resistance curve, clamp, and write into `updated`. -/
def applyDeltaStep (hormones : HDict) (updated : HDict) (kd : String × ℚ) :
    Option HDict :=
  match dictGet hormones kd.1 with
  | none => none
  | some current => some (dictSet updated kd.1 (updateLevel current kd.2))

/-- The state transformation of `apply_contextual_hormone_adjustments`
(lines 160–189) on the loaded store: when the delta map is non-empty, fold
the per-hormone update over it starting from `updated = hormones.copy()`;
when it is empty, decay every hormone toward baseline. `none` models the
`KeyError` raised by `hormones[hormone]` for a key missing from the store. -/
def applyHormoneDeltas (deltas : HDict) (hormones : HDict) : Option HDict :=
  if deltas ≠ [] then
    deltas.foldl (fun acc kd => acc.bind fun upd => applyDeltaStep hormones upd kd)
      (some hormones)
  else
    some (hormones.map fun kv => (kv.1, decayStep kv.2))

/-- All values of a hormone store lie in `[0, 1]`. -/
def valsIn01 (d : HDict) : Prop := ∀ kv ∈ d, 0 ≤ kv.2 ∧ kv.2 ≤ 1

instance (d : HDict) : Decidable (valsIn01 d) := by
  unfold valsIn01; infer_instance

/-- The stores reachable from a store whose values all lie in `[0, 1]` by any
sequence of `apply_contextual_hormone_adjustments` updates. -/
inductive ReachableStore : HDict → Prop
  | base (s : HDict) : valsIn01 s → ReachableStore s
  | step (ds s s' : HDict) : ReachableStore s → applyHormoneDeltas ds s = some s' →
      ReachableStore s'

/-! ### `persona/mood_tracker.py`: mood classification -/

/-- The `mood_scores` dict built by `calculate_mood_from_hormones`
(lines 57–115 of `mood_tracker.py`), as the list of gated `(mood, score)`
candidates in the insertion order the Python code executes the
assignments. Each branch assigns a distinct mood name, so dict insertion
order is exactly this concatenation order. -/
def moodCandidates (hormone_levels : HDict) : List (String × ℚ) :=
  let dopamine := dictGetD hormone_levels "dopamine" (1/2)
  let serotonin := dictGetD hormone_levels "serotonin" (1/2)
  let cortisol := dictGetD hormone_levels "cortisol" (1/2)
  let oxytocin := dictGetD hormone_levels "oxytocin" (1/2)
  let dopa_dev := dopamine - 1/2
  let sero_dev := serotonin - 1/2
  let cort_dev := cortisol - 1/2
  let oxy_dev := oxytocin - 1/2
  (if cort_dev > 1/10 ∧ sero_dev < -(5/100) then
      [("anxious", |cort_dev| + |sero_dev| * (7/10))] else []) ++
  (if cort_dev > 1/10 ∧ dopa_dev < -(5/100) then
      [("restless", |cort_dev| + |dopa_dev| * (6/10))] else []) ++
  (if cort_dev > 1/10 ∧ cort_dev > 15/100 then
      [("stressed", |cort_dev| * (12/10))] else []) ++
  (if sero_dev < -(8/100) ∧ dopa_dev < -(5/100) then
      [("depressed", |sero_dev| + |dopa_dev| * (8/10))] else []) ++
  (if sero_dev < -(8/100) ∧ ¬dopa_dev < -(5/100) ∧ cort_dev > 5/100 then
      [("melancholic", |sero_dev| + |cort_dev| * (6/10))] else []) ++
  (if sero_dev < -(8/100) ∧ ¬dopa_dev < -(5/100) ∧ ¬cort_dev > 5/100 then
      [("sad", |sero_dev| * (11/10))] else []) ++
  (if dopa_dev > 8/100 ∧ oxy_dev > 5/100 then
      [("euphoric", dopa_dev + oxy_dev * (8/10))] else []) ++
  (if dopa_dev > 8/100 ∧ ¬oxy_dev > 5/100 ∧ sero_dev > 5/100 then
      [("cheerful", dopa_dev + sero_dev * (7/10))] else []) ++
  (if dopa_dev > 8/100 ∧ ¬oxy_dev > 5/100 ∧ ¬sero_dev > 5/100 then
      [("energetic", dopa_dev * (12/10))] else []) ++
  (if oxy_dev > 1/10 ∧ dopa_dev > 5/100 then
      [("loving", oxy_dev + dopa_dev * (6/10))] else []) ++
  (if oxy_dev > 1/10 ∧ ¬dopa_dev > 5/100 ∧ sero_dev > 3/100 then
      [("affectionate", oxy_dev + sero_dev * (8/10))] else []) ++
  (if oxy_dev > 1/10 ∧ ¬dopa_dev > 5/100 ∧ ¬sero_dev > 3/100 then
      [("caring", oxy_dev * (11/10))] else []) ++
  (if dopa_dev > 3/100 ∧ sero_dev > 3/100 ∧ cort_dev < 1/10 then
      [("content", (dopa_dev + sero_dev) * (8/10))] else []) ++
  (if |dopa_dev| > 5/100 ∧ |sero_dev| > 5/100 ∧ |cort_dev| > 5/100 then
      [("conflicted", (|dopa_dev| + |sero_dev| + |cort_dev|) * (4/10))] else [])

/-- Python `max(items, key=lambda x: x[1])` over a non-empty list: keep the
current best and replace it only on a strictly greater key, so the first
maximal element wins ties. -/
def maxByScore (x : String × ℚ) (xs : List (String × ℚ)) : String × ℚ :=
  xs.foldl (fun best y => if y.2 > best.2 then y else best) x

/-- Model of `calculate_mood_from_hormones` (lines 49–134): `("neutral", 0.5)` when no
candidate is gated on, otherwise the first highest-scoring candidate with its
score clamped to `[0.1, 1.0]`. -/
def calculate_mood_from_hormones (hormone_levels : HDict) : String × ℚ :=
  match moodCandidates hormone_levels with
  | [] => ("neutral", 1/2)
  | c :: cs =>
      let top := maxByScore c cs
      (top.1, min 1 (max (1/10) top.2))

/-! ### `persona/mood_tracker.py`: history ledger -/

/-- One entry of `mood_history.json` as built on lines 159–171:
the optional `hormone_snapshot` holds the hormone levels loaded when the
reason is tagged `contextual` or `hormone_event`. -/
structure MoodHistoryEntry where
  timestamp : String
  mood : String
  intensity : ℚ
  reason : String
  is_hybrid : Bool
  is_emergent : Bool
  stability : String
  hormone_snapshot : Option HDict

/-- Model of `load_mood_history` (lines 22–38): the parse outcome of the history file
is `none` when the file is missing or unparsable, and in both cases the
function swallows the error and returns the empty list. -/
def load_mood_history (parsed : Option (List MoodHistoryEntry)) :
    List MoodHistoryEntry :=
  match parsed with
  | some history => history
  | none => []

/-- Substring test used by `"contextual" in reason` on line 170. -/
def strContains (s pat : String) : Bool :=
  decide (pat.toList <:+: s.toList)

/-- The history entry built on lines 159–171 of `update_mood`;
`currentHormones` stands for the `load_hormone_levels()` snapshot. -/
def mkHistoryEntry (timestamp newMood : String) (intensity : ℚ) (reason : String)
    (isHybrid isEmergent : Bool) (stability : String) (currentHormones : HDict) :
    MoodHistoryEntry :=
  { timestamp := timestamp
    mood := newMood
    intensity := intensity
    reason := reason
    is_hybrid := isHybrid
    is_emergent := isEmergent
    stability := stability
    hormone_snapshot :=
      if reason ≠ "" ∧ (strContains reason "contextual" ∨ strContains reason "hormone_event") then
        some currentHormones
      else none }

/-- Model of lines 173–177: append the entry, then keep only the last 100
(`history[-100:]`). -/
def appendAndTrim (history : List MoodHistoryEntry) (entry : MoodHistoryEntry) :
    List MoodHistoryEntry :=
  if (history ++ [entry]).length > 100 then
    (history ++ [entry]).drop ((history ++ [entry]).length - 100)
  else history ++ [entry]

/-- The persisted state touched by `update_mood`: the current-mood document
(`persona/mood_adjustments.json`, abstracted to the written payload) and the
mood history ledger. -/
structure MoodPersistState where
  currentMoodDoc : Option (String × ℚ × String)
  history : List MoodHistoryEntry

/-- Model of `update_mood` (lines 136–188) as a transformer of the persisted state.
`writeOk` is whether the current-mood write on lines 150–155 succeeds: when
it raises, the function logs and returns at once, before the ledger is read
or written. `parsed` is the parse outcome the subsequent `load_mood_history`
call would see; `currentHormones` stands for `load_hormone_levels()`. -/
def update_mood (writeOk : Bool) (timestamp newMood : String) (intensity : ℚ)
    (reason : String) (isHybrid isEmergent : Bool) (stability : String)
    (currentHormones : HDict) (parsed : Option (List MoodHistoryEntry))
    (st : MoodPersistState) : MoodPersistState :=
  if writeOk then
    let history := load_mood_history parsed
    let entry := mkHistoryEntry timestamp newMood intensity reason
      isHybrid isEmergent stability currentHormones
    { currentMoodDoc := some (newMood, intensity, timestamp)
      history := appendAndTrim history entry }
  else st

/-- The four hormone names of the store. -/
def hormoneNames : List String := ["dopamine", "serotonin", "cortisol", "oxytocin"]

/-- The baseline store: every hormone at `0.5`. -/
def baselineStore : HDict :=
  [("dopamine", 1/2), ("serotonin", 1/2), ("cortisol", 1/2), ("oxytocin", 1/2)]

/-! ### Dictionary lemmas -/

theorem dictGet_mem {α : Type} {d : List (String × α)} {k : String} {v : α}
    (h : dictGet d k = some v) : (k, v) ∈ d := by
  induction d with
  | nil => simp [dictGet] at h
  | cons hd tl ih =>
      by_cases hk : hd.1 = k
      · simp only [dictGet, if_pos hk, Option.some.injEq] at h
        exact List.mem_cons.mpr (Or.inl (by rw [← hk, ← h]))
      · simp only [dictGet, if_neg hk] at h
        exact List.mem_cons_of_mem _ (ih h)

theorem dictGet_isSome_of_mem {α : Type} {d : List (String × α)} {k : String}
    {v : α} (h : (k, v) ∈ d) : (dictGet d k).isSome := by
  induction d with
  | nil => simp at h
  | cons hd tl ih =>
      by_cases hk : hd.1 = k
      · simp [dictGet, hk]
      · rcases List.mem_cons.mp h with h1 | h1
        · exact absurd (congrArg Prod.fst h1.symm) hk
        · simpa [dictGet, hk] using ih h1

theorem dictGet_dictSet_self {α : Type} (d : List (String × α)) (k : String)
    (v : α) : dictGet (dictSet d k v) k = some v := by
  induction d with
  | nil => simp [dictGet, dictSet]
  | cons hd tl ih =>
      by_cases hk : hd.1 = k
      · simp [dictSet, hk, dictGet]
      · simp [dictSet, hk, dictGet, ih]

theorem dictGet_dictSet_ne {α : Type} (d : List (String × α)) {k k' : String}
    (v : α) (h : k' ≠ k) : dictGet (dictSet d k v) k' = dictGet d k' := by
  have h' : ¬(k = k') := fun e => h e.symm
  induction d with
  | nil => simp [dictGet, dictSet, h']
  | cons hd tl ih =>
      by_cases hk : hd.1 = k
      · have hne : ¬(hd.1 = k') := by rw [hk]; exact h'
        simp [dictSet, hk, dictGet, h', hne]
      · by_cases hk2 : hd.1 = k'
        · simp [dictSet, hk, dictGet, hk2, h]
        · simp [dictSet, hk, dictGet, hk2, ih]

theorem mem_dictSet {α : Type} {d : List (String × α)} {k : String} {v : α}
    {kv : String × α} (h : kv ∈ dictSet d k v) : kv = (k, v) ∨ kv ∈ d := by
  induction d with
  | nil => simpa [dictSet] using h
  | cons hd tl ih =>
      by_cases hk : hd.1 = k
      · rcases List.mem_cons.mp (by simpa [dictSet, hk] using h) with h1 | h1
        · exact Or.inl h1
        · exact Or.inr (List.mem_cons_of_mem _ h1)
      · rcases List.mem_cons.mp (by simpa [dictSet, hk] using h) with h1 | h1
        · exact Or.inr (h1 ▸ List.mem_cons_self _ _)
        · rcases ih h1 with h2 | h2
          · exact Or.inl h2
          · exact Or.inr (List.mem_cons_of_mem _ h2)

theorem dictGet_unique {α : Type} {d : List (String × α)} {k : String}
    {v v' : α} (h : dictGet d k = some v) (h' : dictGet d k = some v') : v = v' := by
  rw [h] at h'
  exact Option.some.inj h'

theorem dictKeys_cons {α : Type} (hd : String × α) (tl : List (String × α)) :
    dictKeys (hd :: tl) = hd.1 :: dictKeys tl := rfl

theorem key_mem_of_mem {α : Type} {d : List (String × α)} {kv : String × α}
    (h : kv ∈ d) : kv.1 ∈ dictKeys d := List.mem_map_of_mem _ h

theorem key_mem_dictSet {α : Type} {d : List (String × α)} {k x : String} {v : α}
    (h : x ∈ dictKeys (dictSet d k v)) : x = k ∨ x ∈ dictKeys d := by
  rcases List.mem_map.mp h with ⟨kv, hmem, hx⟩
  rcases mem_dictSet hmem with h1 | h1
  · left; rw [← hx, h1]
  · right; exact hx ▸ key_mem_of_mem h1

theorem dictGetD_dictSet_ne {α : Type} (d : List (String × α)) {k k' : String}
    (v v0 : α) (h : k' ≠ k) : dictGetD (dictSet d k v) k' v0 = dictGetD d k' v0 := by
  unfold dictGetD
  rw [dictGet_dictSet_ne d v h]

/-! ### Accumulation-loop lemmas -/

theorem accumWeights_nil (d : HDict) (s : ℚ) : accumWeights d [] s = d := rfl

theorem accumWeights_cons (d : HDict) (hw : String × ℚ) (tl : HDict) (s : ℚ) :
    accumWeights d (hw :: tl) s =
      accumWeights (dictSet d hw.1 (dictGetD d hw.1 0 + hw.2 * s)) tl s := rfl

theorem key_mem_accumWeights {s : ℚ} : ∀ {ws d : HDict} {kv : String × ℚ},
    kv ∈ accumWeights d ws s → kv.1 ∈ dictKeys d ∨ kv.1 ∈ dictKeys ws := by
  intro ws
  induction ws with
  | nil => intro d kv h; exact Or.inl (key_mem_of_mem h)
  | cons hw tl ih =>
      intro d kv h
      rw [accumWeights_cons] at h
      rcases ih h with h1 | h1
      · rcases key_mem_dictSet h1 with h2 | h2
        · exact Or.inr (h2 ▸ List.mem_cons_self _ _)
        · exact Or.inl h2
      · exact Or.inr (List.mem_cons_of_mem _ h1)

theorem dictGet_accumWeights_of_not_mem {s : ℚ} : ∀ {ws d : HDict} {k : String},
    k ∉ dictKeys ws → dictGet (accumWeights d ws s) k = dictGet d k := by
  intro ws
  induction ws with
  | nil => intro d k _; rfl
  | cons hw tl ih =>
      intro d k hk
      rw [dictKeys_cons] at hk
      have h1 : ¬(k = hw.1 ∨ k ∈ dictKeys tl) := by simpa [List.mem_cons] using hk
      push_neg at h1
      rw [accumWeights_cons, ih h1.2, dictGet_dictSet_ne d _ h1.1]

theorem dictGet_accumWeights_of_mem {s : ℚ} : ∀ {ws d : HDict} {k : String} {w : ℚ},
    (dictKeys ws).Nodup → (k, w) ∈ ws →
    dictGet (accumWeights d ws s) k = some (dictGetD d k 0 + w * s) := by
  intro ws
  induction ws with
  | nil => intro d k w _ h; simp at h
  | cons hw tl ih =>
      intro d k w hnd hmem
      rw [dictKeys_cons, List.nodup_cons] at hnd
      rcases List.mem_cons.mp hmem with h1 | h1
      · rw [← h1] at hnd ⊢
        rw [accumWeights_cons, dictGet_accumWeights_of_not_mem hnd.1,
          dictGet_dictSet_self]
      · have hk : k ≠ hw.1 := by
          intro e
          exact hnd.1 (e ▸ key_mem_of_mem h1)
        rw [accumWeights_cons, ih hnd.2 h1, dictGetD_dictSet_ne d _ 0 hk]

/-! ### Clamp, resistance and decay lemmas -/

theorem clamp01_mem (x : ℚ) : 0 ≤ clamp01 x ∧ clamp01 x ≤ 1 := by
  unfold clamp01
  constructor
  · exact le_max_left 0 _
  · exact max_le (by norm_num) (min_le_left 1 x)

theorem decayStep_mem {v : ℚ} (h0 : 0 ≤ v) (h1 : v ≤ 1) :
    0 ≤ decayStep v ∧ decayStep v ≤ 1 := by
  unfold decayStep _DECAY_STEP
  split
  · norm_num
  · split
    · rename_i hlt hgt
      rw [abs_sub_lt_iff, not_and_or, not_lt, not_lt] at hlt
      constructor <;> [linarith; linarith]
    · rename_i hlt hgt
      rw [abs_sub_lt_iff, not_and_or, not_lt, not_lt] at hlt
      push_neg at hgt
      constructor <;> [linarith; rcases hlt with h | h <;> linarith]

/-! ### Store-update lemmas -/

theorem applyFold_none (hormones : HDict) (deltas : List (String × ℚ)) :
    deltas.foldl (fun acc kd => acc.bind fun upd => applyDeltaStep hormones upd kd)
      none = none := by
  induction deltas with
  | nil => rfl
  | cons kd tl ih => simpa using ih

theorem applyFold_valsIn01 (hormones : HDict) :
    ∀ (deltas : List (String × ℚ)) (upd : HDict), valsIn01 upd →
      ∀ {res : HDict},
        deltas.foldl (fun acc kd => acc.bind fun u => applyDeltaStep hormones u kd)
          (some upd) = some res →
        valsIn01 res := by
  intro deltas
  induction deltas with
  | nil =>
      intro upd h res hres
      exact (Option.some.inj hres) ▸ h
  | cons kd tl ih =>
      intro upd h res hres
      rw [List.foldl_cons] at hres
      cases hget : dictGet hormones kd.1 with
      | none =>
          rw [show ((some upd).bind fun u => applyDeltaStep hormones u kd) = none by
            simp [applyDeltaStep, hget]] at hres
          rw [applyFold_none] at hres
          exact absurd hres (by simp)
      | some cur =>
          rw [show ((some upd).bind fun u => applyDeltaStep hormones u kd) =
              some (dictSet upd kd.1 (updateLevel cur kd.2)) by
            simp [applyDeltaStep, hget]] at hres
          refine ih _ ?_ hres
          intro kv hkv
          rcases mem_dictSet hkv with h1 | h1
          · rw [h1]
            simpa [updateLevel] using
              clamp01_mem (cur + _apply_resistance cur (rateLimit kd.2))
          · exact h kv h1

theorem applyHormoneDeltas_valsIn01 {deltas hormones updated : HDict}
    (h : valsIn01 hormones)
    (happ : applyHormoneDeltas deltas hormones = some updated) : valsIn01 updated := by
  unfold applyHormoneDeltas at happ
  split at happ
  · exact applyFold_valsIn01 hormones deltas hormones h happ
  · rw [← Option.some.inj happ]
    intro kv hkv
    rcases List.mem_map.mp hkv with ⟨kv0, hmem, heq⟩
    have hb := h kv0 hmem
    rw [← heq]
    simpa using decayStep_mem hb.1 hb.2

/-- C1: for every hormone store whose values all lie in `[0,1]` and every
analysis result (delta map) on which the update succeeds, the store returned
and saved by `apply_contextual_hormone_adjustments` again has every value in
`[0,1]` — the non-empty-delta branch clamps each new level into `[0,1]` and
the decay branch moves each value `0.01` toward `0.5` without leaving
`[0,1]` — hence every reachable store keeps all values in `[0,1]` after any
sequence of updates. -/
theorem hormone_levels_remain_in_unit_interval :
    (∀ deltas hormones updated : HDict, valsIn01 hormones →
        applyHormoneDeltas deltas hormones = some updated → valsIn01 updated) ∧
    (∀ s : HDict, ReachableStore s → valsIn01 s) := by
  constructor
  · intro d h u h01 happ
    exact applyHormoneDeltas_valsIn01 h01 happ
  · intro s hs
    induction hs with
    | base s h => exact h
    | step ds s s' _ happ ih => exact applyHormoneDeltas_valsIn01 ih happ

/-- Witness for C1: a concrete update (a `fear`-sized cortisol delta at the
baseline store) lands in a store whose values are all in `[0,1]`. -/
theorem hormone_levels_remain_in_unit_interval_witness :
    valsIn01 [("dopamine", 1/2), ("serotonin", 1/2), ("cortisol", 29/50), ("oxytocin", 1/2)] :=
  hormone_levels_remain_in_unit_interval.1 [("cortisol", 15/100)] baselineStore
    [("dopamine", 1/2), ("serotonin", 1/2), ("cortisol", 29/50), ("oxytocin", 1/2)]
    (by
      intro kv hkv
      simp only [baselineStore, List.mem_cons, List.not_mem_nil, or_false] at hkv
      rcases hkv with h | h | h | h <;> rw [h] <;> norm_num)
    (by
      norm_num [applyHormoneDeltas, applyDeltaStep, baselineStore, dictGet, dictSet,
        updateLevel, clamp01, rateLimit, _apply_resistance, _RATE_LIMIT]
      simp)

/-! ### Decay convergence (C3) -/

theorem decayStep_of_close {v : ℚ} (h : |v - 1/2| ≤ _DECAY_STEP) :
    decayStep v = 1/2 := by
  unfold _DECAY_STEP at h
  unfold decayStep _DECAY_STEP
  rcases lt_or_eq_of_le h with hlt | heq
  · rw [if_pos hlt]
  · rw [if_neg (by rw [heq]; exact lt_irrefl _)]
    rcases abs_cases (v - 1/2) with ⟨he, _⟩ | ⟨he, _⟩ <;> rw [he] at heq
    · rw [if_pos (by linarith)]
      linarith
    · rw [if_neg (by intro hgt; linarith)]
      linarith

theorem decay_reaches (n : ℕ) : ∀ v : ℚ, |v - 1/2| ≤ n / 100 →
    decayStep^[n] v = 1/2 := by
  induction n with
  | zero =>
      intro v h
      have h' : |v - 1/2| ≤ 0 := by simpa using h
      have hv : v - 1/2 = 0 := abs_nonpos_iff.mp h'
      have hv2 : v = 1/2 := by linarith
      simpa using hv2
  | succ n ih =>
      intro v h
      rw [Function.iterate_succ_apply]
      by_cases hc : |v - 1/2| ≤ _DECAY_STEP
      · rw [decayStep_of_close hc]
        refine ih _ ?_
        have hz : |(1:ℚ)/2 - 1/2| = 0 := by norm_num
        rw [hz]
        positivity
      · rw [not_le] at hc
        unfold _DECAY_STEP at hc
        push_cast at h
        have h1 : |decayStep v - 1/2| ≤ n / 100 := by
          unfold decayStep _DECAY_STEP
          rw [if_neg (by rw [not_lt]; linarith)]
          rcases abs_cases (v - 1/2) with ⟨he, hs⟩ | ⟨he, hs⟩ <;> rw [he] at hc h
          · rw [if_pos (by linarith), abs_of_nonneg (by linarith)]
            linarith
          · rw [if_neg (by intro hgt; linarith), abs_of_nonpos (by linarith)]
            linarith
        exact ih _ h1

theorem decayStep_above {v : ℚ} (h : 1/2 ≤ v) : 1/2 ≤ decayStep v := by
  unfold decayStep _DECAY_STEP
  split
  · exact le_refl _
  · rename_i hc
    rw [not_lt, abs_of_nonneg (by linarith)] at hc
    rw [if_pos (by linarith)]
    linarith

theorem decayStep_below {v : ℚ} (h : v ≤ 1/2) : decayStep v ≤ 1/2 := by
  unfold decayStep _DECAY_STEP
  split
  · exact le_refl _
  · rename_i hc
    rw [not_lt, abs_of_nonpos (by linarith)] at hc
    rw [if_neg (by intro hgt; linarith)]
    linarith

theorem decay_iter_above {v : ℚ} (h : 1/2 ≤ v) (n : ℕ) : 1/2 ≤ decayStep^[n] v := by
  induction n with
  | zero => simpa using h
  | succ n ih => rw [Function.iterate_succ_apply']; exact decayStep_above ih

theorem decay_iter_below {v : ℚ} (h : v ≤ 1/2) (n : ℕ) : decayStep^[n] v ≤ 1/2 := by
  induction n with
  | zero => simpa using h
  | succ n ih => rw [Function.iterate_succ_apply']; exact decayStep_below ih

/-- C3: the empty-delta (neutral) branch of
`apply_contextual_hormone_adjustments` maps every hormone pointwise by
`decayStep`, which moves a level `0.01` toward `0.5` and yields exactly `0.5`
whenever the level is within `0.01` of `0.5`; for every starting level in
`[0,1]`, iterating the neutral update reaches exactly `0.5` within
`⌈|v - 0.5| / 0.01⌉` steps, and no iterate ever crosses to the other side
of `0.5`. -/
theorem neutral_decay_converges_to_baseline :
    (∀ hormones : HDict, applyHormoneDeltas [] hormones =
        some (hormones.map fun kv => (kv.1, decayStep kv.2))) ∧
    (∀ v : ℚ, |v - 1/2| ≤ _DECAY_STEP → decayStep v = 1/2) ∧
    (∀ v : ℚ, 0 ≤ v → v ≤ 1 →
        decayStep^[(⌈|v - 1/2| / _DECAY_STEP⌉).toNat] v = 1/2) ∧
    (∀ (v : ℚ) (n : ℕ), 1/2 ≤ v → 1/2 ≤ decayStep^[n] v) ∧
    (∀ (v : ℚ) (n : ℕ), v ≤ 1/2 → decayStep^[n] v ≤ 1/2) := by
  refine ⟨fun hormones => by simp [applyHormoneDeltas],
    fun v h => decayStep_of_close h, fun v _ _ => ?_, fun v n h => ?_, fun v n h => ?_⟩
  · apply decay_reaches
    unfold _DECAY_STEP
    have h0 : (0:ℚ) ≤ |v - 1/2| / (1/100) := by positivity
    have hceil : (0:ℤ) ≤ ⌈|v - 1/2| / ((1:ℚ)/100)⌉ := Int.ceil_nonneg h0
    have hle := Int.le_ceil (|v - 1/2| / ((1:ℚ)/100))
    rw [div_le_iff₀ (by norm_num : (0:ℚ) < 1/100)] at hle
    have hcast : ((⌈|v - 1/2| / ((1:ℚ)/100)⌉.toNat : ℕ) : ℚ) =
        ((⌈|v - 1/2| / ((1:ℚ)/100)⌉ : ℤ) : ℚ) := by
      rw [← Int.cast_natCast, Int.toNat_of_nonneg hceil]
    rw [hcast]
    linarith
  · exact decay_iter_above h n
  · exact decay_iter_below h n

/-- Witness for C3: starting from level `0.52`, the neutral decay reaches
exactly `0.5` in `⌈0.02 / 0.01⌉ = 2` steps. -/
theorem neutral_decay_converges_to_baseline_witness :
    decayStep^[(⌈|(13:ℚ)/25 - 1/2| / _DECAY_STEP⌉).toNat] ((13:ℚ)/25) = 1/2 :=
  neutral_decay_converges_to_baseline.2.2.1 (13/25) (by norm_num) (by norm_num)

/-! ### Resistance curve (C5) -/

/-- C5: `_apply_resistance(current, delta)` equals
`delta * (0.4 + 0.6 * (1 - |current - 0.5| * 2))`; it is the identity in
`delta` at the baseline `current = 0.5`; at saturation (`current` 0 or 1) its
magnitude is at least `0.4 * |delta|`; and for a fixed raw delta its
magnitude is weakly decreasing as `|current - 0.5|` increases over
`current ∈ [0,1]`. -/
theorem resistance_curve_properties :
    (∀ current delta : ℚ, _apply_resistance current delta =
        delta * (4/10 + 6/10 * (1 - |current - 1/2| * 2))) ∧
    (∀ delta : ℚ, _apply_resistance (1/2) delta = delta) ∧
    (∀ delta : ℚ, 4/10 * |delta| ≤ |_apply_resistance 0 delta| ∧
        4/10 * |delta| ≤ |_apply_resistance 1 delta|) ∧
    (∀ (delta c₁ c₂ : ℚ), 0 ≤ c₁ → c₁ ≤ 1 → 0 ≤ c₂ → c₂ ≤ 1 →
        |c₁ - 1/2| ≤ |c₂ - 1/2| →
        |_apply_resistance c₂ delta| ≤ |_apply_resistance c₁ delta|) := by
  refine ⟨fun c d => rfl, fun d => by unfold _apply_resistance; norm_num,
    fun d => ⟨?_, ?_⟩, ?_⟩
  · unfold _apply_resistance
    rw [show |(0:ℚ) - 1/2| = 1/2 by norm_num, abs_mul,
      show |(4:ℚ)/10 + 6/10 * (1 - 1/2 * 2)| = 4/10 by norm_num, mul_comm]
  · unfold _apply_resistance
    rw [show |(1:ℚ) - 1/2| = 1/2 by norm_num, abs_mul,
      show |(4:ℚ)/10 + 6/10 * (1 - 1/2 * 2)| = 4/10 by norm_num, mul_comm]
  · intro d c₁ c₂ h₁0 h₁1 h₂0 h₂1 hmono
    have ht₁ : |c₁ - 1/2| ≤ 1/2 := abs_le.mpr ⟨by linarith, by linarith⟩
    have ht₂ : |c₂ - 1/2| ≤ 1/2 := abs_le.mpr ⟨by linarith, by linarith⟩
    have hf₂ : (0:ℚ) ≤ 4/10 + 6/10 * (1 - |c₂ - 1/2| * 2) := by linarith
    have hf₁ : (0:ℚ) ≤ 4/10 + 6/10 * (1 - |c₁ - 1/2| * 2) := by linarith
    unfold _apply_resistance
    rw [abs_mul, abs_mul, abs_of_nonneg hf₂, abs_of_nonneg hf₁]
    exact mul_le_mul_of_nonneg_left (by linarith) (abs_nonneg d)

/-- Witness for C5: at raw delta `0.1`, the effective delta at the saturated
level `1` is no larger in magnitude than at the baseline level `0.5`. -/
theorem resistance_curve_properties_witness :
    |_apply_resistance 1 (1/10)| ≤ |_apply_resistance (1/2) (1/10)| :=
  resistance_curve_properties.2.2.2 (1/10) (1/2) 1 (by norm_num) (by norm_num)
    (by norm_num) (by norm_num) (by norm_num)

/-! ### Rate limiting (C6) -/

theorem rateLimit_abs (d : ℚ) : |rateLimit d| ≤ _RATE_LIMIT := by
  unfold rateLimit _RATE_LIMIT
  rw [abs_le]
  exact ⟨le_max_left _ _, max_le (by norm_num) (min_le_left _ _)⟩

theorem resistance_abs_le {c : ℚ} (h0 : 0 ≤ c) (h1 : c ≤ 1) (d : ℚ) :
    |_apply_resistance c d| ≤ |d| := by
  have ht : |c - 1/2| ≤ 1/2 := abs_le.mpr ⟨by linarith, by linarith⟩
  have ht0 : (0:ℚ) ≤ |c - 1/2| := abs_nonneg _
  have hf0 : (0:ℚ) ≤ 4/10 + 6/10 * (1 - |c - 1/2| * 2) := by linarith
  have hf1 : 4/10 + 6/10 * (1 - |c - 1/2| * 2) ≤ 1 := by linarith
  unfold _apply_resistance
  rw [abs_mul, abs_of_nonneg hf0]
  calc |d| * (4/10 + 6/10 * (1 - |c - 1/2| * 2)) ≤ |d| * 1 :=
        mul_le_mul_of_nonneg_left hf1 (abs_nonneg d)
    _ = |d| := mul_one _

theorem clamp01_close {c : ℚ} (e : ℚ) (h0 : 0 ≤ c) (h1 : c ≤ 1) :
    |clamp01 (c + e) - c| ≤ |e| := by
  unfold clamp01
  rcases le_total (c + e) 0 with hce | hce
  · rw [min_eq_right (by linarith : c + e ≤ 1), max_eq_left hce]
    rw [abs_of_nonpos (by linarith : (0:ℚ) - c ≤ 0)]
    have : c ≤ -e := by linarith
    calc -(0 - c) = c := by ring
      _ ≤ -e := this
      _ ≤ |e| := neg_le_abs e
  · rcases le_total (c + e) 1 with hce1 | hce1
    · rw [min_eq_right hce1, max_eq_right hce, add_sub_cancel_left]
    · rw [min_eq_left hce1, max_eq_right (by linarith : (0:ℚ) ≤ 1)]
      rw [abs_of_nonneg (by linarith : (0:ℚ) ≤ 1 - c)]
      calc 1 - c ≤ e := by linarith
        _ ≤ |e| := le_abs_self e

theorem updateLevel_close {c : ℚ} (h0 : 0 ≤ c) (h1 : c ≤ 1) (d : ℚ) :
    |updateLevel c d - c| ≤ _RATE_LIMIT := by
  unfold updateLevel
  exact le_trans (clamp01_close _ h0 h1)
    (le_trans (resistance_abs_le h0 h1 _) (rateLimit_abs d))

theorem applyFold_close (hormones : HDict) (h01 : valsIn01 hormones) :
    ∀ (deltas : List (String × ℚ)) (upd : HDict),
      (∀ k cur, dictGet hormones k = some cur →
        ∃ v, dictGet upd k = some v ∧ |v - cur| ≤ _RATE_LIMIT) →
      ∀ {res : HDict},
        deltas.foldl (fun acc kd => acc.bind fun u => applyDeltaStep hormones u kd)
          (some upd) = some res →
        ∀ k cur, dictGet hormones k = some cur →
          ∃ v, dictGet res k = some v ∧ |v - cur| ≤ _RATE_LIMIT := by
  intro deltas
  induction deltas with
  | nil =>
      intro upd hinv res hres
      exact (Option.some.inj hres) ▸ hinv
  | cons kd tl ih =>
      intro upd hinv res hres
      rw [List.foldl_cons] at hres
      cases hget : dictGet hormones kd.1 with
      | none =>
          rw [show ((some upd).bind fun u => applyDeltaStep hormones u kd) = none by
            simp [applyDeltaStep, hget]] at hres
          rw [applyFold_none] at hres
          exact absurd hres (by simp)
      | some cur1 =>
          rw [show ((some upd).bind fun u => applyDeltaStep hormones u kd) =
              some (dictSet upd kd.1 (updateLevel cur1 kd.2)) by
            simp [applyDeltaStep, hget]] at hres
          refine ih _ ?_ hres
          intro k cur hcur
          by_cases hk : k = kd.1
          · subst hk
            have hcc : cur = cur1 := Option.some.inj (hcur.symm.trans hget)
            subst hcc
            refine ⟨updateLevel cur kd.2, dictGet_dictSet_self _ _ _, ?_⟩
            have hb := h01 _ (dictGet_mem hget)
            exact updateLevel_close hb.1 hb.2 kd.2
          · rw [dictGet_dictSet_ne _ _ hk]
            exact hinv k cur hcur

/-- C6: in `apply_contextual_hormone_adjustments` each raw per-hormone
delta is rate-limited to `[-0.08, 0.08]` before the resistance curve, whose
factor lies in `[0.4, 1]` over `[0,1]`, so one non-neutral update moves any
hormone of a store with values in `[0,1]` by at most `0.08` in absolute
value — even for weight-table deltas above `0.08` such as `fear → cortisol
+0.15` at intensity and confidence `1`. -/
theorem single_update_is_rate_limited :
    ∀ deltas hormones updated : HDict, valsIn01 hormones → deltas ≠ [] →
      applyHormoneDeltas deltas hormones = some updated →
      ∀ k cur, dictGet hormones k = some cur →
        ∃ v, dictGet updated k = some v ∧ |v - cur| ≤ _RATE_LIMIT := by
  intro deltas hormones updated h01 hne happ k cur hcur
  unfold applyHormoneDeltas at happ
  rw [if_pos hne] at happ
  refine applyFold_close hormones h01 deltas hormones ?_ happ k cur hcur
  intro k' cur' hc
  exact ⟨cur', hc, by rw [sub_self, abs_zero]; norm_num [_RATE_LIMIT]⟩

/-- Witness for C6: the `fear`-table cortisol delta `+0.15` at full intensity
and confidence moves cortisol from `0.5` to `0.58`, a change of exactly
`0.08`. -/
theorem single_update_is_rate_limited_witness :
    ∃ v, dictGet [("dopamine", (1:ℚ)/2), ("serotonin", 1/2), ("cortisol", 29/50),
        ("oxytocin", 1/2)] "cortisol" = some v ∧ |v - 1/2| ≤ _RATE_LIMIT :=
  single_update_is_rate_limited [("cortisol", 15/100)] baselineStore
    [("dopamine", 1/2), ("serotonin", 1/2), ("cortisol", 29/50), ("oxytocin", 1/2)]
    (by
      intro kv hkv
      simp only [baselineStore, List.mem_cons, List.not_mem_nil, or_false] at hkv
      rcases hkv with h | h | h | h <;> rw [h] <;> norm_num)
    (by simp)
    (by
      norm_num [applyHormoneDeltas, applyDeltaStep, baselineStore, dictGet, dictSet,
        updateLevel, clamp01, rateLimit, _apply_resistance, _RATE_LIMIT]
      simp)
    "cortisol" (1/2) (by simp [baselineStore, dictGet])


/-! ### Mood selection (C2) -/

theorem maxByScore_of_strict_max :
    ∀ (xs : List (String × ℚ)) (x : String × ℚ) (n : String) (s : ℚ),
      (n, s) ∈ x :: xs → (∀ y ∈ x :: xs, y.2 < s ∨ y = (n, s)) →
      maxByScore x xs = (n, s) := by
  intro xs
  induction xs with
  | nil =>
      intro x n s hmem hmax
      have hx : (n, s) = x := by simpa using hmem
      simp [maxByScore, ← hx]
  | cons y tl ih =>
      intro x n s hmem hmax
      have hstep : maxByScore x (y :: tl) = maxByScore (if y.2 > x.2 then y else x) tl := rfl
      rw [hstep]
      have hxy : (if y.2 > x.2 then y else x) ∈ x :: y :: tl := by
        split
        · exact List.mem_cons_of_mem _ (List.mem_cons_self _ _)
        · exact List.mem_cons_self _ _
      have hmax' : ∀ z ∈ (if y.2 > x.2 then y else x) :: tl, z.2 < s ∨ z = (n, s) := by
        intro z hz
        rcases List.mem_cons.mp hz with hz1 | hz1
        · exact hmax _ (hz1 ▸ hxy)
        · exact hmax _ (List.mem_cons_of_mem _ (List.mem_cons_of_mem _ hz1))
      have hmem' : (n, s) ∈ (if y.2 > x.2 then y else x) :: tl := by
        rcases List.mem_cons.mp hmem with h1 | h1
        · have hx2 : x.2 = s := by rw [← h1]
          by_cases hgt : y.2 > x.2
          · rcases hmax y (List.mem_cons_of_mem _ (List.mem_cons_self _ _)) with h2 | h2
            · rw [hx2] at hgt
              exact absurd (lt_trans h2 hgt) (lt_irrefl _)
            · have hy2 : y.2 = s := by rw [h2]
              rw [hx2, hy2] at hgt
              exact absurd hgt (lt_irrefl _)
          · rw [if_neg hgt]
            exact List.mem_cons.mpr (Or.inl h1)
        · rcases List.mem_cons.mp h1 with h2 | h2
          · by_cases hgt : y.2 > x.2
            · rw [if_pos hgt]
              exact List.mem_cons.mpr (Or.inl h2)
            · rcases hmax x (List.mem_cons_self _ _) with h3 | h3
              · have hy2 : y.2 = s := by rw [← h2]
                rw [not_lt, hy2] at hgt
                exact absurd (lt_of_le_of_lt hgt h3) (lt_irrefl _)
              · rw [if_neg hgt]
                exact List.mem_cons.mpr (Or.inl h3.symm)
          · exact List.mem_cons_of_mem _ h2
      exact ih _ n s hmem' hmax'

/-- C2: `calculate_mood_from_hormones` returns the gated candidate with
the strictly highest score, with intensity the winning score clamped to
`[0.1, 1.0]`; when no candidate fires it returns exactly `("neutral", 0.5)`;
in particular all-baseline hormones (every level `0.5`) yield exactly
`("neutral", 0.5)`. -/
theorem mood_selection_rule :
    (∀ hormone_levels : HDict, moodCandidates hormone_levels = [] →
        calculate_mood_from_hormones hormone_levels = ("neutral", 1/2)) ∧
    (∀ (hormone_levels : HDict) (n : String) (s : ℚ),
        (n, s) ∈ moodCandidates hormone_levels →
        (∀ y ∈ moodCandidates hormone_levels, y ≠ (n, s) → y.2 < s) →
        calculate_mood_from_hormones hormone_levels = (n, min 1 (max (1/10) s))) ∧
    (calculate_mood_from_hormones baselineStore = ("neutral", 1/2)) := by
  refine ⟨fun h hemp => by simp [calculate_mood_from_hormones, hemp], ?_, ?_⟩
  · intro h n s hmem hmax
    cases hc : moodCandidates h with
    | nil => rw [hc] at hmem; simp at hmem
    | cons c cs =>
        rw [hc] at hmem hmax
        have htop : maxByScore c cs = (n, s) := by
          apply maxByScore_of_strict_max cs c n s hmem
          intro y hy
          by_cases hys : y = (n, s)
          · exact Or.inr hys
          · exact Or.inl (hmax y hy hys)
        simp [calculate_mood_from_hormones, hc, htop]
  · have hcand : moodCandidates baselineStore = [] := by
      norm_num [moodCandidates, baselineStore, dictGetD, dictGet, abs]
    simp [calculate_mood_from_hormones, hcand]

/-- Witness for C2: the stress scenario store classifies to `anxious`, the
unique strictly-highest-scoring gated candidate, at intensity
`min 1 (max 0.1 0.51) = 0.51`. -/
theorem mood_selection_rule_witness :
    calculate_mood_from_hormones
      [("dopamine", (3:ℚ)/10), ("serotonin", 2/10), ("cortisol", 8/10), ("oxytocin", 4/10)] =
      ("anxious", min 1 (max (1/10) (51/100))) := by
  have hcand : moodCandidates
      [("dopamine", (3:ℚ)/10), ("serotonin", 2/10), ("cortisol", 8/10), ("oxytocin", 4/10)] =
      [("anxious", 51/100), ("restless", 42/100), ("stressed", 36/100),
       ("depressed", 46/100), ("conflicted", 32/100)] := by
    simp [moodCandidates, dictGetD, dictGet]
    norm_num [abs]
  exact mood_selection_rule.2.1
    [("dopamine", 3/10), ("serotonin", 2/10), ("cortisol", 8/10), ("oxytocin", 4/10)]
    "anxious" (51/100)
    (by rw [hcand]; exact List.mem_cons_self _ _)
    (by
      rw [hcand]
      intro y hy hne
      simp only [List.mem_cons, List.not_mem_nil, or_false] at hy
      rcases hy with h | h | h | h | h
      · exact absurd h hne
      all_goals rw [h]
      all_goals norm_num)

/-! ### Emotion weight table and scaling (C4) -/

/-- Counterexample for C4 as stated: the fixed emotion weight table consulted
for the primary emotion has 24 entries (10 positive, 10 negative, 4
neutral/complex), not 22. -/
theorem emotion_table_has_24_not_22_entries :
    _EMOTION_HORMONE_MAP.length = 24 ∧ _EMOTION_HORMONE_MAP.length ≠ 22 := by
  constructor
  · rfl
  · intro h
    rw [show _EMOTION_HORMONE_MAP.length = 24 from rfl] at h
    omega

/-- C4 (amended): the fixed emotion weight table consulted for the
primary emotion has exactly 24 entries spanning positive, negative, and
neutral/complex emotions, with `joy ↦ {dopamine:+0.12, serotonin:+0.08}` and
`fear ↦ {cortisol:+0.15, serotonin:-0.06}`; each weight of the primary
emotion's entry is scaled by `emotion_score * overall_confidence` and
accumulated into the delta map. -/
theorem emotion_weight_table_and_scaling :
    _EMOTION_HORMONE_MAP.length = 24 ∧
    dictGet _EMOTION_HORMONE_MAP "joy" =
      some [("dopamine", 12/100), ("serotonin", 8/100)] ∧
    dictGet _EMOTION_HORMONE_MAP "fear" =
      some [("cortisol", 15/100), ("serotonin", -6/100)] ∧
    (∀ (e : EmotionSignal) (rest : List EmotionSignal) (conf : ℚ) (ws : HDict),
        conf > _CONFIDENCE_THRESHOLD →
        dictGet _EMOTION_HORMONE_MAP (strLower e.label) = some ws →
        emotionDeltas (e :: rest) conf = accumWeights [] ws (e.score * conf)) ∧
    (∀ (e : EmotionSignal) (rest : List EmotionSignal) (conf : ℚ) (ws : HDict)
        (hname : String) (w : ℚ),
        conf > _CONFIDENCE_THRESHOLD →
        dictGet _EMOTION_HORMONE_MAP (strLower e.label) = some ws →
        (dictKeys ws).Nodup → (hname, w) ∈ ws →
        dictGet (analyzeHormoneDeltas (e :: rest) none conf) hname =
          some (w * (e.score * conf))) := by
  refine ⟨rfl, rfl, rfl, ?_, ?_⟩
  · intro e rest conf ws hconf hlook
    simp [emotionDeltas, hconf, hlook]
  · intro e rest conf ws hname w hconf hlook hnd hmem
    have hE : analyzeHormoneDeltas (e :: rest) none conf =
        accumWeights [] ws (e.score * conf) := by
      simp [analyzeHormoneDeltas, emotionDeltas, hconf, hlook]
    rw [hE, dictGet_accumWeights_of_mem hnd hmem]
    rw [show dictGetD ([] : HDict) hname 0 = 0 from rfl, zero_add]

/-- Witness for C4 (amended): the `joy` entry at score `1` and confidence `1`
contributes exactly its dopamine weight `0.12` to the delta map. -/
theorem emotion_weight_table_and_scaling_witness :
    dictGet (analyzeHormoneDeltas [⟨"joy", 1⟩] none 1) "dopamine" =
      some ((12:ℚ)/100 * (1 * 1)) :=
  emotion_weight_table_and_scaling.2.2.2.2 ⟨"joy", 1⟩ [] 1
    [("dopamine", 12/100), ("serotonin", 8/100)] "dopamine" (12/100)
    (by norm_num [_CONFIDENCE_THRESHOLD]) rfl (by simp [dictKeys])
    (List.mem_cons_self _ _)

/-! ### Toxicity contribution rule (C7) -/

/-- C7: a toxicity label contributes only when the result is flagged
toxic with score strictly above `0.5`; its weights from the 7-entry toxicity
table are scaled by the raw score and added onto whatever emotion-driven
delta is already present (never replacing it); toxicity or emotion labels
absent from the weight tables contribute nothing and cause no failure. -/
theorem toxicity_contribution_rule :
    _TOXICITY_HORMONE_MAP.length = 7 ∧
    (∀ (emotions : List EmotionSignal) (conf : ℚ) (t : ToxicityResult),
        ¬(t.is_toxic ∧ t.score > _TOXICITY_THRESHOLD) →
        analyzeHormoneDeltas emotions (some t) conf =
          analyzeHormoneDeltas emotions none conf) ∧
    (∀ (emotions : List EmotionSignal) (conf : ℚ) (t : ToxicityResult),
        dictGet _TOXICITY_HORMONE_MAP (strLower t.label) = none →
        analyzeHormoneDeltas emotions (some t) conf =
          analyzeHormoneDeltas emotions none conf) ∧
    (∀ (emotions : List EmotionSignal) (conf : ℚ) (t : ToxicityResult)
        (ws : HDict) (hname : String) (w : ℚ),
        t.is_toxic → t.score > _TOXICITY_THRESHOLD →
        dictGet _TOXICITY_HORMONE_MAP (strLower t.label) = some ws →
        (dictKeys ws).Nodup → (hname, w) ∈ ws →
        dictGet (analyzeHormoneDeltas emotions (some t) conf) hname =
          some (dictGetD (analyzeHormoneDeltas emotions none conf) hname 0 +
            w * t.score)) ∧
    (∀ (e : EmotionSignal) (rest : List EmotionSignal) (conf : ℚ),
        dictGet _EMOTION_HORMONE_MAP (strLower e.label) = none →
        emotionDeltas (e :: rest) conf = []) := by
  refine ⟨rfl, ?_, ?_, ?_, ?_⟩
  · intro emotions conf t hcond
    simp [analyzeHormoneDeltas, hcond]
  · intro emotions conf t hlook
    by_cases hcond : t.is_toxic ∧ t.score > _TOXICITY_THRESHOLD
    · simp [analyzeHormoneDeltas, hcond, hlook]
    · simp [analyzeHormoneDeltas, hcond]
  · intro emotions conf t ws hname w hto hsc hlook hnd hmem
    have hE : analyzeHormoneDeltas emotions (some t) conf =
        accumWeights (analyzeHormoneDeltas emotions none conf) ws t.score := by
      simp [analyzeHormoneDeltas, hto, hsc, hlook]
    rw [hE, dictGet_accumWeights_of_mem hnd hmem]
  · intro e rest conf hlook
    unfold emotionDeltas
    by_cases hconf : conf > _CONFIDENCE_THRESHOLD
    · simp [hconf, hlook]
    · simp [hconf, show dictGet _EMOTION_HORMONE_MAP "neutral" = some [] from rfl,
        accumWeights_nil]

/-- Witness for C7: a `toxic` result with score `0.9` on top of a `fear`
signal at full score and confidence adds `-0.08 * 0.9` onto the serotonin
delta `-0.06` already contributed by `fear`. -/
theorem toxicity_contribution_rule_witness :
    dictGet (analyzeHormoneDeltas [⟨"fear", 1⟩] (some ⟨true, 9/10, "toxic"⟩) 1)
        "serotonin" =
      some (dictGetD (analyzeHormoneDeltas [⟨"fear", 1⟩] none 1) "serotonin" 0 +
        -8/100 * (9/10)) :=
  toxicity_contribution_rule.2.2.2.1 [⟨"fear", 1⟩] 1 ⟨true, 9/10, "toxic"⟩
    [("cortisol", 15/100), ("serotonin", -8/100)] "serotonin" (-8/100)
    rfl (by norm_num [_TOXICITY_THRESHOLD]) rfl (by simp [dictKeys])
    (by simp)

/-! ### Delta-map key safety (C10) -/

theorem emotion_table_keys :
    ∀ ent ∈ _EMOTION_HORMONE_MAP, ∀ hw ∈ ent.2, hw.1 ∈ hormoneNames := by decide

theorem toxicity_table_keys :
    ∀ ent ∈ _TOXICITY_HORMONE_MAP, ∀ hw ∈ ent.2, hw.1 ∈ hormoneNames := by decide

theorem accumWeights_keys {d ws : HDict} {s : ℚ}
    (hd : ∀ kv ∈ d, kv.1 ∈ hormoneNames)
    (hws : ∀ hw ∈ ws, hw.1 ∈ hormoneNames) :
    ∀ kv ∈ accumWeights d ws s, kv.1 ∈ hormoneNames := by
  intro kv hkv
  rcases key_mem_accumWeights hkv with h | h
  · rcases List.mem_map.mp h with ⟨kv0, hm, he⟩
    exact he ▸ hd kv0 hm
  · rcases List.mem_map.mp h with ⟨hw, hm, he⟩
    exact he ▸ hws hw hm

theorem emotionDeltas_keys (emotions : List EmotionSignal) (conf : ℚ) :
    ∀ kv ∈ emotionDeltas emotions conf, kv.1 ∈ hormoneNames := by
  have hgen : ∀ (l : String) (sc : ℚ),
      ∀ kv ∈ (match dictGet _EMOTION_HORMONE_MAP l with
        | some ws => accumWeights [] ws sc
        | none => ([] : HDict)), kv.1 ∈ hormoneNames := by
    intro l sc kv hkv
    cases hlook : dictGet _EMOTION_HORMONE_MAP l with
    | none => rw [hlook] at hkv; simp at hkv
    | some ws =>
        rw [hlook] at hkv
        exact accumWeights_keys (by simp) (emotion_table_keys _ (dictGet_mem hlook)) kv hkv
  intro kv hkv
  cases emotions with
  | nil => exact hgen "neutral" _ kv hkv
  | cons e rest =>
      by_cases hconf : conf > _CONFIDENCE_THRESHOLD
      · simp only [emotionDeltas, if_pos hconf] at hkv
        exact hgen (strLower e.label) _ kv hkv
      · simp only [emotionDeltas, if_neg hconf] at hkv
        exact hgen "neutral" _ kv hkv

theorem analyzeHormoneDeltas_keys (emotions : List EmotionSignal)
    (tox : Option ToxicityResult) (conf : ℚ) :
    ∀ kv ∈ analyzeHormoneDeltas emotions tox conf, kv.1 ∈ hormoneNames := by
  intro kv hkv
  cases tox with
  | none => exact emotionDeltas_keys emotions conf kv hkv
  | some t =>
      by_cases hcond : t.is_toxic ∧ t.score > _TOXICITY_THRESHOLD
      · have hred : analyzeHormoneDeltas emotions (some t) conf =
            match dictGet _TOXICITY_HORMONE_MAP (strLower t.label) with
            | some ws => accumWeights (emotionDeltas emotions conf) ws t.score
            | none => emotionDeltas emotions conf := by
          simp [analyzeHormoneDeltas, hcond]
        rw [hred] at hkv
        cases hlook : dictGet _TOXICITY_HORMONE_MAP (strLower t.label) with
        | none =>
            rw [hlook] at hkv
            exact emotionDeltas_keys _ _ kv hkv
        | some ws =>
            rw [hlook] at hkv
            exact accumWeights_keys (emotionDeltas_keys _ _)
              (toxicity_table_keys _ (dictGet_mem hlook)) kv hkv
      · have hred : analyzeHormoneDeltas emotions (some t) conf =
            emotionDeltas emotions conf := by
          simp [analyzeHormoneDeltas, hcond]
        rw [hred] at hkv
        exact emotionDeltas_keys _ _ kv hkv

theorem applyFold_isSome (hormones : HDict) :
    ∀ (deltas : List (String × ℚ)) (upd : HDict),
      (∀ kv ∈ deltas, (dictGet hormones kv.1).isSome) →
      (deltas.foldl (fun acc kd => acc.bind fun u => applyDeltaStep hormones u kd)
        (some upd)).isSome := by
  intro deltas
  induction deltas with
  | nil => intro upd _; simp
  | cons kd tl ih =>
      intro upd hall
      rw [List.foldl_cons]
      have h1 := hall kd (List.mem_cons_self _ _)
      cases hget : dictGet hormones kd.1 with
      | none => rw [hget] at h1; simp at h1
      | some cur =>
          rw [show ((some upd).bind fun u => applyDeltaStep hormones u kd) =
              some (dictSet upd kd.1 (updateLevel cur kd.2)) by
            simp [applyDeltaStep, hget]]
          exact ih _ (fun kv hkv => hall kv (List.mem_cons_of_mem _ hkv))

/-- C10: every key of the `hormone_deltas` map returned by
`analyze_contextual_sentiment` is one of `dopamine`, `serotonin`, `cortisol`,
`oxytocin`, because only those hormone names occur in the two weight tables;
hence the unguarded indexings `hormones[hormone]` / `updated[hormone]` in
`apply_contextual_hormone_adjustments` never fail on a store containing
those four keys. -/
theorem delta_keys_safe :
    (∀ (emotions : List EmotionSignal) (tox : Option ToxicityResult) (conf : ℚ),
        ∀ kv ∈ analyzeHormoneDeltas emotions tox conf, kv.1 ∈ hormoneNames) ∧
    (∀ deltas hormones : HDict,
        (∀ kv ∈ deltas, kv.1 ∈ hormoneNames) →
        (∀ k ∈ hormoneNames, (dictGet hormones k).isSome) →
        (applyHormoneDeltas deltas hormones).isSome) := by
  refine ⟨analyzeHormoneDeltas_keys, ?_⟩
  intro deltas hormones hkeys hstore
  unfold applyHormoneDeltas
  split
  · exact applyFold_isSome hormones deltas hormones
      (fun kv hkv => hstore kv.1 (hkeys kv hkv))
  · simp

/-- Witness for C10: the key contributed by a full-strength `joy` signal is
one of the four hormone names, and applying a cortisol delta to the baseline
store succeeds. -/
theorem delta_keys_safe_witness :
    ("dopamine", (12:ℚ)/100 * (1 * 1)).1 ∈ hormoneNames ∧
    (applyHormoneDeltas [("cortisol", 15/100)] baselineStore).isSome := by
  constructor
  · refine delta_keys_safe.1 [⟨"joy", 1⟩] none 1 ("dopamine", 12/100 * (1 * 1)) ?_
    have hjoy : strLower "joy" = "joy" := by decide
    have hE : analyzeHormoneDeltas [⟨"joy", (1:ℚ)⟩] none 1 =
        [("dopamine", 3/25), ("serotonin", 2/25)] := by
      simp [analyzeHormoneDeltas, emotionDeltas, _CONFIDENCE_THRESHOLD, hjoy,
        accumWeights, dictSet, dictGetD, dictGet]
      norm_num [dictSet, dictGet]
      simp
    rw [hE]
    simp only [List.mem_cons, Prod.mk.injEq]
    left
    norm_num
  · exact delta_keys_safe.2 [("cortisol", 15/100)] baselineStore
      (by
        intro kv hkv
        simp only [List.mem_cons, List.not_mem_nil, or_false] at hkv
        rw [hkv]
        simp [hormoneNames])
      (by
        intro k hk
        simp only [hormoneNames, List.mem_cons, List.not_mem_nil, or_false] at hk
        rcases hk with h | h | h | h <;> rw [h] <;> simp [baselineStore, dictGet])

/-! ### Mood history ledger (C8, C9) -/

/-- C8: a successful `update_mood` call appends exactly one history entry
and then truncates to the most recent 100, so the persisted ledger never
exceeds 100 entries and what is kept is a suffix of the appended sequence
(chronological order preserved, oldest dropped first); `load_mood_history`
returns the empty list — never an error — when the history file is missing
or unparsable. -/
theorem mood_history_ledger_bounded :
    (∀ (ts m : String) (i : ℚ) (r : String) (hy em : Bool) (stb : String)
        (hs : HDict) (parsed : Option (List MoodHistoryEntry))
        (st : MoodPersistState),
        (update_mood true ts m i r hy em stb hs parsed st).history =
          appendAndTrim (load_mood_history parsed)
            (mkHistoryEntry ts m i r hy em stb hs)) ∧
    (∀ (h : List MoodHistoryEntry) (e : MoodHistoryEntry),
        (appendAndTrim h e).length ≤ 100) ∧
    (∀ (h : List MoodHistoryEntry) (e : MoodHistoryEntry),
        (appendAndTrim h e).IsSuffix (h ++ [e])) ∧
    (load_mood_history none = []) := by
  refine ⟨fun ts m i r hy em stb hs parsed st => rfl, ?_, ?_, rfl⟩
  · intro h e
    unfold appendAndTrim
    split
    · rename_i hlen
      rw [List.length_drop]
      omega
    · rename_i hlen
      exact Nat.le_of_not_lt hlen
  · intro h e
    unfold appendAndTrim
    split
    · exact List.drop_suffix _ _
    · exact List.suffix_refl _

/-- C9: if writing the current-mood document fails inside `update_mood`,
the function returns immediately: the persisted state — in particular the
mood history ledger — is unchanged, so a failed current-mood write never
produces a ledger record for that update. -/
theorem failed_mood_write_leaves_ledger_unchanged :
    ∀ (ts m : String) (i : ℚ) (r : String) (hy em : Bool) (stb : String)
      (hs : HDict) (parsed : Option (List MoodHistoryEntry))
      (st : MoodPersistState),
      update_mood false ts m i r hy em stb hs parsed st = st ∧
      (update_mood false ts m i r hy em stb hs parsed st).history = st.history := by
  intro ts m i r hy em stb hs parsed st
  exact ⟨rfl, rfl⟩

end BOT
